import Mathlib

/-!
Verification of the video-virality cluster analysis tool
(`src/ClusterAnalysisTool.jsx`).

The source is a single React component.  Its computational core is embedded
here as pure Lean functions:

* `VideoRecord`, `calculateClusterStats` — the per-cluster aggregator
  (source lines 34–85); JS numbers are modelled by `ℚ`, a missing metric
  field by `Option.none` (the source substitutes `0` via `|| 0`).
* `normalizeValue`, `getRadarData` — min-max radar normalization (lines 253–277).
* `suggestFromMetrics`, `suggestApproach` — the ordered rule cascade
  (lines 109–147).
* `buildSpec`, `generateSpec` — the generation-spec builder and its state
  update (lines 176–236); React `useState` maps are modelled as association
  lists with the copy-on-write update `setA` (the JS spread update).
* `addTrendToken`, `removeTrendToken` — trend-token management
  (lines 157–174); JS `String.prototype.trim` is modelled by `jsTrim`
  over the ASCII whitespace characters.
-/

/-- One parsed row of the interpretation table.  A metric field that is
absent / undefined / null on the row is `none`; the aggregator substitutes
`0` for it exactly as the source `row.field || 0` does. -/
structure VideoRecord where
  cluster : Int
  motion_mean : Option ℚ
  cut_rate_per_min : Option ℚ
  audio_rms_mean : Option ℚ
  audio_rms_std : Option ℚ
  visual_density : Option ℚ
deriving DecidableEq

/-- One group accumulated by `calculateClusterStats`: the cluster id together
with the rows pushed so far (source `clusterGroups[cluster]`). -/
abbrev ClusterGroup := Int × List VideoRecord

/-- Insert one row into the group list: append it to the group with the same
cluster id if present, otherwise open a new group at the end (the source
object update `clusterGroups[cluster]`). -/
def groupInsert : List ClusterGroup → VideoRecord → List ClusterGroup
  | [], r => [(r.cluster, [r])]
  | (c, g) :: rest, r =>
    if c = r.cluster then (c, g ++ [r]) :: rest
    else (c, g) :: groupInsert rest r

/-- Collect the rows into groups by their `cluster` field (source lines 37–59). -/
def groupRows (data : List VideoRecord) : List ClusterGroup :=
  data.foldl groupInsert []

/-- `arr.reduce((a, b) => a + b, 0) / arr.length` from source line 62. -/
def avgL (l : List ℚ) : ℚ := l.foldl (· + ·) 0 / (l.length : ℚ)

/-- `Math.min(...arr)` for the nonempty lists the source applies it to
(source line 63). -/
def listMin : List ℚ → ℚ
  | [] => 0
  | x :: xs => xs.foldl min x

/-- `Math.max(...arr)` for the nonempty lists the source applies it to
(source line 64). -/
def listMax : List ℚ → ℚ
  | [] => 0
  | x :: xs => xs.foldl max x

/-- Per-cluster descriptive statistics (source lines 66–81). -/
structure ClusterStats where
  cluster : Int
  count : Nat
  avg_motion : ℚ
  min_motion : ℚ
  max_motion : ℚ
  avg_cut_rate : ℚ
  min_cut_rate : ℚ
  max_cut_rate : ℚ
  avg_audio_rms_mean : ℚ
  avg_audio_rms_std : ℚ
  avg_visual_density : ℚ
  min_visual_density : ℚ
  max_visual_density : ℚ
  videos : List VideoRecord
deriving DecidableEq

/-- Build the statistics of one group (source lines 61–82).  The metric value
lists are exactly the values pushed row by row at lines 54–58: the field with
`0` substituted for a missing value. -/
def statsOfGroup (p : ClusterGroup) : ClusterStats :=
  let g := p.2
  let motion_values := g.map (fun r => r.motion_mean.getD 0)
  let cut_rate_values := g.map (fun r => r.cut_rate_per_min.getD 0)
  let audio_rms_mean_values := g.map (fun r => r.audio_rms_mean.getD 0)
  let audio_rms_std_values := g.map (fun r => r.audio_rms_std.getD 0)
  let visual_density_values := g.map (fun r => r.visual_density.getD 0)
  { cluster := p.1
    count := g.length
    avg_motion := avgL motion_values
    min_motion := listMin motion_values
    max_motion := listMax motion_values
    avg_cut_rate := avgL cut_rate_values
    min_cut_rate := listMin cut_rate_values
    max_cut_rate := listMax cut_rate_values
    avg_audio_rms_mean := avgL audio_rms_mean_values
    avg_audio_rms_std := avgL audio_rms_std_values
    avg_visual_density := avgL visual_density_values
    min_visual_density := listMin visual_density_values
    max_visual_density := listMax visual_density_values
    videos := g }

/-- Insert a `ClusterStats` into a list sorted by ascending cluster id. -/
def insertSorted (s : ClusterStats) : List ClusterStats → List ClusterStats
  | [] => [s]
  | t :: ts => if s.cluster ≤ t.cluster then s :: t :: ts else t :: insertSorted s ts

/-- `stats.sort((a, b) => a.cluster - b.cluster)` from source line 84:
sort ascending by the numeric cluster id. -/
def sortStats : List ClusterStats → List ClusterStats
  | [] => []
  | s :: rest => insertSorted s (sortStats rest)

/-- The aggregator (source lines 34–85): group the rows by cluster, compute
the per-group statistics, and sort ascending by cluster id. -/
def calculateClusterStats (data : List VideoRecord) : List ClusterStats :=
  sortStats ((groupRows data).map statsOfGroup)

/-- One point of the radar chart: a metric name and its normalized value. -/
structure RadarPoint where
  metric : String
  value : ℚ
deriving DecidableEq

/-- Min-max normalization against all currently loaded clusters
(source lines 263–268): `50` when the range is degenerate, otherwise
`((value - min) / (max - min)) * 100`. -/
def normalizeValue (value : ℚ) (values : List ℚ) : ℚ :=
  let mn := listMin values
  let mx := listMax values
  if mx = mn then 50 else ((value - mn) / (mx - mn)) * 100

/-- The normalized radar value of one metric (projection `f`) of cluster `s`
against the full cluster list `cs`. -/
def radarValue (cs : List ClusterStats) (f : ClusterStats → ℚ) (s : ClusterStats) : ℚ :=
  normalizeValue (f s) (cs.map f)

/-- The five radar points of one cluster (source lines 253–277). -/
def getRadarData (cs : List ClusterStats) (stats : ClusterStats) : List RadarPoint :=
  [ ⟨"Motion", radarValue cs (fun s => s.avg_motion) stats⟩,
    ⟨"Cut Rate", radarValue cs (fun s => s.avg_cut_rate) stats⟩,
    ⟨"Visual Density", radarValue cs (fun s => s.avg_visual_density) stats⟩,
    ⟨"Audio Volume", radarValue cs (fun s => s.avg_audio_rms_mean) stats⟩,
    ⟨"Audio Variance", radarValue cs (fun s => s.avg_audio_rms_std) stats⟩ ]

/-- A suggested generation approach with confidence and rationale. -/
structure ApproachSuggestion where
  approach : String
  confidence : String
  reason : String
deriving DecidableEq

/-- The ordered rule cascade of `suggestApproach` (source lines 122–146),
as a function of the five normalized metric values; the first matching rule
returns. -/
def suggestFromMetrics (motion cutRate visualDensity audioVolume audioVariance : ℚ) :
    ApproachSuggestion :=
  if motion > 60 ∧ cutRate > 60 then
    ⟨"motion-focused", "high", "High motion + fast cuts = movement-driven content"⟩
  else if visualDensity > 70 then
    ⟨"image-conditioned", "high", "Strong visual composition and density"⟩
  else if visualDensity > 50 ∧ motion < 40 then
    ⟨"image-conditioned", "medium", "Visual-focused with minimal movement"⟩
  else if motion > 70 then
    ⟨"motion-focused", "medium", "Significant camera/subject movement"⟩
  else if audioVariance > 70 ∨ audioVolume > 70 then
    ⟨"text-driven", "medium",
      "Distinctive audio characteristics suggest narrative/thematic content"⟩
  else
    ⟨"text-driven", "low",
      "Balanced metrics - best suited for conceptual/thematic generation"⟩

/-- `radarData.find(d => d.metric === name)?.value || 0` (source lines
114–118); a found value of `0` and a missing metric both yield `0`, exactly
as the JS `|| 0` does. -/
def findMetric (rd : List RadarPoint) (name : String) : ℚ :=
  match rd.find? (fun d => d.metric = name) with
  | some d => d.value
  | none => 0

/-- The approach classifier (source lines 109–147) applied to one cluster
against the currently loaded cluster list. -/
def suggestApproach (cs : List ClusterStats) (stats : ClusterStats) : ApproachSuggestion :=
  let rd := getRadarData cs stats
  suggestFromMetrics (findMetric rd "Motion") (findMetric rd "Cut Rate")
    (findMetric rd "Visual Density") (findMetric rd "Audio Volume")
    (findMetric rd "Audio Variance")

/-- `Math.round` on a rational: round half toward positive infinity. -/
def jsRound (q : ℚ) : Int := ⌊q + 1/2⌋

/-- Pad a digit string with leading zeros up to length `n`. -/
def padZeros (s : String) (n : Nat) : String :=
  if s.length < n then String.mk (List.replicate (n - s.length) '0') ++ s else s

/-- `Number.prototype.toFixed(d)` on a rational: round to `d` decimal places
(ties toward positive infinity) and print with exactly `d` fraction digits. -/
def ratToFixed (q : ℚ) (d : Nat) : String :=
  let scaled : Int := jsRound (q * ((10 : ℚ) ^ d))
  let sign := if scaled < 0 then "-" else ""
  let a : Nat := scaled.natAbs
  let ip : Nat := a / 10 ^ d
  let fp : Nat := a % 10 ^ d
  if d = 0 then sign ++ toString ip
  else sign ++ toString ip ++ "." ++ padZeros (toString fp) d

/-- `visual_style` block of a generation spec (source lines 188–192). -/
structure VisualStyle where
  visual_complexity : String
  detail_level : String
  consistency : String
deriving DecidableEq

/-- `motion_profile` block of a generation spec (source lines 194–201). -/
structure MotionProfile where
  camera_movement : String
  motion_intensity : Int
  motion_range : String
  pacing : String
  cuts_per_minute : Int
  cut_rate_range : String
deriving DecidableEq

/-- `audio_profile` block of a generation spec (source lines 203–208). -/
structure AudioProfile where
  volume_level : String
  dynamic_range : String
  audio_rms_mean : String
  audio_rms_std : String
deriving DecidableEq

/-- `base_prompt_components` block of a generation spec (source lines 187–209). -/
structure BasePromptComponents where
  visual_style : VisualStyle
  motion_profile : MotionProfile
  audio_profile : AudioProfile
deriving DecidableEq

/-- `trend_tokens` block of a generation spec (source lines 211–216). -/
structure TrendTokensBlock where
  enabled : Bool
  tokens : List String
  usage_note : String
  application_strategy : String
deriving DecidableEq

/-- `constraints` block of a generation spec (source lines 218–223). -/
structure SpecConstraints where
  sample_count : Nat
  variation_strategy : String
deriving DecidableEq

/-- `generation_hints` block of a generation spec (source lines 225–231). -/
structure GenerationHints where
  note : String
deriving DecidableEq

/-- The exported generation-spec document (source lines 183–232). -/
structure GenerationSpec where
  cluster_id : Int
  generation_approach : String
  base_prompt_components : BasePromptComponents
  trend_tokens : TrendTokensBlock
  constraints : SpecConstraints
  generation_hints : GenerationHints
deriving DecidableEq

/-- Build the generation-spec document for one cluster (source lines
183–232); a pure function of the cluster id, the chosen approach string, the
trend-token list and the cluster statistics. -/
def buildSpec (cluster : Int) (approach : String) (tokens : List String)
    (stats : ClusterStats) : GenerationSpec :=
  { cluster_id := cluster
    generation_approach := approach
    base_prompt_components :=
      { visual_style :=
          { visual_complexity :=
              if stats.avg_visual_density > 0.6 then "high"
              else if stats.avg_visual_density > 0.3 then "medium" else "low"
            detail_level :=
              if stats.avg_visual_density > 0.5 then "detailed" else "simplified"
            consistency := "within_cluster_variance" }
        motion_profile :=
          { camera_movement :=
              if stats.avg_motion > 0.6 then "dynamic"
              else if stats.avg_motion > 0.3 then "moderate" else "static"
            motion_intensity := jsRound (stats.avg_motion * 10)
            motion_range := ratToFixed stats.min_motion 2 ++ " - " ++ ratToFixed stats.max_motion 2
            pacing :=
              if stats.avg_cut_rate > 120 then "fast"
              else if stats.avg_cut_rate > 60 then "medium" else "slow"
            cuts_per_minute := jsRound stats.avg_cut_rate
            cut_rate_range :=
              toString (jsRound stats.min_cut_rate) ++ " - " ++ toString (jsRound stats.max_cut_rate) }
        audio_profile :=
          { volume_level :=
              if stats.avg_audio_rms_mean > 0.5 then "high"
              else if stats.avg_audio_rms_mean > 0.25 then "medium" else "low"
            dynamic_range :=
              if stats.avg_audio_rms_std > 0.3 then "high"
              else if stats.avg_audio_rms_std > 0.15 then "medium" else "low"
            audio_rms_mean := ratToFixed stats.avg_audio_rms_mean 3
            audio_rms_std := ratToFixed stats.avg_audio_rms_std 3 } }
    trend_tokens :=
      { enabled := tokens.length > 0
        tokens := tokens
        usage_note :=
          "Optional 1-3 word modifiers appended to base prompt to reflect current trends within cluster"
        application_strategy := "Randomly select 0-2 tokens per generation for variance" }
    constraints :=
      { sample_count := stats.count
        variation_strategy :=
          if approach = "image-conditioned" then "vary_seed_image"
          else if approach = "motion-focused" then "vary_motion_parameters"
          else "vary_text_prompt" }
    generation_hints :=
      { note :=
          if approach = "image-conditioned" then
            "Use representative frames from cluster as seed images. Apply trend tokens to text conditioning."
          else if approach = "motion-focused" then
            "Emphasize camera movement and subject motion. Trend tokens can guide motion style variations."
          else
            "Focus on thematic and conceptual elements. Trend tokens add current flavor to base themes." } }

/-- Lookup in an association list keyed by cluster id (JS object read
`m[cluster]`, `none` for an absent key). -/
def lookupA {α : Type} : List (Int × α) → Int → Option α
  | [], _ => none
  | (k, v) :: rest, c => if k = c then some v else lookupA rest c

/-- Copy-on-write update of an association list (the JS spread update
`... prev` followed by `[cluster]: v`): replace the entry if the key is
present, otherwise append it. -/
def setA {α : Type} : List (Int × α) → Int → α → List (Int × α)
  | [], k, v => [(k, v)]
  | (k', v') :: rest, k, v =>
    if k' = k then (k, v) :: rest else (k', v') :: setA rest k v

/-- The session state held by the component (source lines 8–13).  The
pre-upload `null` cluster statistics are modelled by the empty list; the
per-cluster JS object maps are modelled by association lists. -/
structure AppState where
  clusterStats : List ClusterStats
  selectedCluster : Option Int
  generationSpecs : List (Int × GenerationSpec)
  selectedApproaches : List (Int × String)
  trendTokens : List (Int × List String)
deriving DecidableEq

/-- The state at component start (source lines 8–13). -/
def initialState : AppState := ⟨[], none, [], [], []⟩

/-- `generateSpec` (source lines 176–236): look the cluster up in the
current statistics, return unchanged if absent; otherwise build the spec
from the selected approach (default `text-driven`, via the JS `||` whose
falsy strings are exactly `""` and the absent value) and the trend tokens,
store it, and mark the cluster as selected. -/
def generateSpec (st : AppState) (cluster : Int) : AppState :=
  match st.clusterStats.find? (fun s => s.cluster = cluster) with
  | none => st
  | some stats =>
    let a := (lookupA st.selectedApproaches cluster).getD ""
    let approach := if a = "" then "text-driven" else a
    let tokens := (lookupA st.trendTokens cluster).getD []
    let spec := buildSpec cluster approach tokens stats
    { st with
      generationSpecs := setA st.generationSpecs cluster spec
      selectedCluster := some cluster }

/-- The user-facing build action (source lines 466–476): the button is
`disabled` whenever `selectedApproaches[cluster]` is falsy (absent or the
empty string), in which case clicking it does nothing; otherwise it invokes
`generateSpec`. -/
def clickGenerateSpec (st : AppState) (cluster : Int) : AppState :=
  if (lookupA st.selectedApproaches cluster).getD "" = "" then st
  else generateSpec st cluster

/-- The whitespace characters recognised by the model of
`String.prototype.trim` (the ASCII white space of JS). -/
def isJsWhitespace (c : Char) : Bool :=
  c == ' ' || c == '\t' || c == '\n' || c == '\r' || c == '\x0b' || c == '\x0c'

/-- Drop trailing characters satisfying `p`. -/
def dropTrail (p : Char → Bool) (l : List Char) : List Char :=
  (l.reverse.dropWhile p).reverse

/-- Strip leading and trailing whitespace from a character list. -/
def trimChars (l : List Char) : List Char :=
  dropTrail isJsWhitespace (l.dropWhile isJsWhitespace)

/-- Model of JS `String.prototype.trim`: strip leading and trailing
whitespace. -/
def jsTrim (s : String) : String := ⟨trimChars s.data⟩

/-- `addTrendToken` (source lines 157–166): ignore a token that is empty
after trimming, ignore when the cluster already has three tokens, ignore a
duplicate, otherwise append the trimmed token. -/
def addTrendToken (st : AppState) (cluster : Int) (token : String) : AppState :=
  if jsTrim token = "" then st
  else
    let current := (lookupA st.trendTokens cluster).getD []
    if current.length ≥ 3 then st
    else if jsTrim token ∈ current then st
    else { st with trendTokens := setA st.trendTokens cluster (current ++ [jsTrim token]) }

/-- `current.filter((unused, i) => i !== index)` from source line 172: drop
the element at position `index`, keep everything else. -/
def filterIdxNe : List String → Nat → List String
  | [], _ => []
  | _ :: xs, 0 => xs
  | x :: xs, Nat.succ k => x :: filterIdxNe xs k

/-- `removeTrendToken` (source lines 168–174): store the token list of the
cluster with the element at `index` removed. -/
def removeTrendToken (st : AppState) (cluster : Int) (index : Nat) : AppState :=
  let current := (lookupA st.trendTokens cluster).getD []
  { st with trendTokens := setA st.trendTokens cluster (filterIdxNe current index) }

/-- One trend-token operation, as triggered from the UI. -/
inductive TokenOp where
  | add (cluster : Int) (token : String)
  | remove (cluster : Int) (index : Nat)

/-- Apply one trend-token operation to the state. -/
def applyTokenOp (st : AppState) : TokenOp → AppState
  | .add c tok => addTrendToken st c tok
  | .remove c i => removeTrendToken st c i

/-- Apply a sequence of trend-token operations to the state. -/
def applyTokenOps (st : AppState) (ops : List TokenOp) : AppState :=
  ops.foldl applyTokenOp st

/-- Invariant tying the groups accumulated so far to the rows already
consumed: the keys are distinct, every consumed row is represented, and
every group holds exactly the consumed rows of its cluster, in order. -/
def GroupsOk (seen : List VideoRecord) (gs : List ClusterGroup) : Prop :=
  (gs.map Prod.fst).Nodup ∧
  (∀ r ∈ seen, r.cluster ∈ gs.map Prod.fst) ∧
  (∀ p ∈ gs, p.2 = seen.filter (fun r => r.cluster = p.1)) ∧
  (∀ p ∈ gs, p.2 ≠ [])

/-- Invariant of one stored trend-token list: at most three entries, no
duplicates, every entry already trimmed. -/
def TokenListOk (l : List String) : Prop :=
  l.length ≤ 3 ∧ l.Nodup ∧ ∀ t ∈ l, jsTrim t = t

/-- Invariant of the whole trend-token map. -/
def TokensOk (m : List (Int × List String)) : Prop :=
  ∀ c l, lookupA m c = some l → TokenListOk l

/-! Concrete inputs used by the example claims and by the witnesses. -/

/-- A row of the worked example: cluster `0`, given motion and cut rate,
all other metric fields absent. -/
def c1Row (m cr : ℚ) : VideoRecord := ⟨0, some m, some cr, none, none, none⟩

/-- The worked example table: motion values `[0.1, 0.3, 0.5]` and cut-rate
values `[20, 40, 60]` in a single cluster. -/
def c1Data : List VideoRecord := [c1Row (1/10) 20, c1Row (3/10) 40, c1Row (1/2) 60]

/-- The statistics the aggregator produces for the worked example. -/
def c1Stats : ClusterStats := statsOfGroup (0, c1Data)

/-- The generation spec built from the worked example statistics. -/
def c1Spec : GenerationSpec := buildSpec 0 "text-driven" [] c1Stats

/-- A row with only the motion field possibly present. -/
def wRow (c : Int) (m : Option ℚ) : VideoRecord := ⟨c, m, none, none, none, none⟩

/-- A small two-cluster table: one row in cluster `2`, two rows in
cluster `1`, every row lacking the cut-rate field. -/
def wData : List VideoRecord := [wRow 2 (some 1), wRow 1 none, wRow 1 (some (1/2))]

/-- The statistics of cluster `1` of `wData`. -/
def wS1 : ClusterStats := statsOfGroup (1, [wRow 1 none, wRow 1 (some (1/2))])

/-- The statistics of cluster `2` of `wData`. -/
def wS2 : ClusterStats := statsOfGroup (2, [wRow 2 (some 1)])

/-- A cluster-statistics value with the given cluster id and average motion
and all other metrics zero. -/
def mkStats (c : Int) (m : ℚ) : ClusterStats :=
  ⟨c, 1, m, m, m, 0, 0, 0, 0, 0, 0, 0, 0, []⟩

/-- A two-cluster statistics list whose average motions differ. -/
def c3Cs : List ClusterStats := [mkStats 1 0, mkStats 2 1]

/-- Token operations exercising trimming and duplicate rejection. -/
def c7Ops : List TokenOp := [TokenOp.add 0 " a ", TokenOp.add 0 "a", TokenOp.add 0 "b"]

/-- The state reached by `c7Ops` from the start state. -/
def c7St : AppState := applyTokenOps initialState c7Ops

/-- A state whose cluster `0` already holds three trend tokens. -/
def c7St3 : AppState :=
  applyTokenOps initialState [TokenOp.add 0 "a", TokenOp.add 0 "b", TokenOp.add 0 "c"]

/-- A generation spec stored under cluster id `5` in the example state. -/
def c9Spec : GenerationSpec := buildSpec 5 "text-driven" [] wS1

/-- An example state with two clusters loaded and one spec already stored. -/
def c9St : AppState :=
  { initialState with clusterStats := [wS1, wS2], generationSpecs := [(5, c9Spec)] }

/-! ### Helper lemmas: averages, minima, maxima -/

theorem foldl_add_all_zero (l : List ℚ) (a : ℚ) (h : ∀ x ∈ l, x = 0) :
    l.foldl (· + ·) a = a := by
  induction l generalizing a with
  | nil => rfl
  | cons x xs ih =>
    rw [List.foldl_cons, h x (List.mem_cons_self x xs), add_zero]
    exact ih a fun y hy => h y (List.mem_cons_of_mem x hy)

theorem avgL_all_zero (l : List ℚ) (h : ∀ x ∈ l, x = 0) : avgL l = 0 := by
  rw [avgL, foldl_add_all_zero l 0 h, zero_div]

theorem foldl_min_le_init (l : List ℚ) (a : ℚ) : l.foldl min a ≤ a := by
  induction l generalizing a with
  | nil => exact le_refl a
  | cons x xs ih => exact le_trans (ih (min a x)) (min_le_left a x)

theorem foldl_min_le_mem (l : List ℚ) (a : ℚ) {x : ℚ} (hx : x ∈ l) :
    l.foldl min a ≤ x := by
  induction l generalizing a with
  | nil => exact absurd hx (List.not_mem_nil x)
  | cons y ys ih =>
    rcases List.mem_cons.mp hx with rfl | hx'
    · exact le_trans (foldl_min_le_init ys (min a x)) (min_le_right a x)
    · exact ih (min a y) hx'

theorem foldl_min_mem (l : List ℚ) (a : ℚ) : l.foldl min a = a ∨ l.foldl min a ∈ l := by
  induction l generalizing a with
  | nil => exact Or.inl rfl
  | cons x xs ih =>
    rcases ih (min a x) with h | h
    · rcases min_choice a x with hc | hc
      · exact Or.inl (by rw [List.foldl_cons, h, hc])
      · exact Or.inr (by rw [List.foldl_cons, h, hc]; exact List.mem_cons_self x xs)
    · exact Or.inr (List.mem_cons_of_mem x h)

theorem listMin_le (l : List ℚ) {x : ℚ} (hx : x ∈ l) : listMin l ≤ x := by
  cases l with
  | nil => exact absurd hx (List.not_mem_nil x)
  | cons y ys =>
    rcases List.mem_cons.mp hx with rfl | hx'
    · exact foldl_min_le_init ys x
    · exact foldl_min_le_mem ys y hx'

theorem listMin_mem (l : List ℚ) (h : l ≠ []) : listMin l ∈ l := by
  cases l with
  | nil => exact absurd rfl h
  | cons y ys =>
    rcases foldl_min_mem ys y with h' | h'
    · rw [listMin, h']; exact List.mem_cons_self y ys
    · exact List.mem_cons_of_mem y h'

theorem foldl_max_init_le (l : List ℚ) (a : ℚ) : a ≤ l.foldl max a := by
  induction l generalizing a with
  | nil => exact le_refl a
  | cons x xs ih => exact le_trans (le_max_left a x) (ih (max a x))

theorem foldl_max_mem_le (l : List ℚ) (a : ℚ) {x : ℚ} (hx : x ∈ l) :
    x ≤ l.foldl max a := by
  induction l generalizing a with
  | nil => exact absurd hx (List.not_mem_nil x)
  | cons y ys ih =>
    rcases List.mem_cons.mp hx with rfl | hx'
    · exact le_trans (le_max_right a x) (foldl_max_init_le ys (max a x))
    · exact ih (max a y) hx'

theorem foldl_max_mem (l : List ℚ) (a : ℚ) : l.foldl max a = a ∨ l.foldl max a ∈ l := by
  induction l generalizing a with
  | nil => exact Or.inl rfl
  | cons x xs ih =>
    rcases ih (max a x) with h | h
    · rcases max_choice a x with hc | hc
      · exact Or.inl (by rw [List.foldl_cons, h, hc])
      · exact Or.inr (by rw [List.foldl_cons, h, hc]; exact List.mem_cons_self x xs)
    · exact Or.inr (List.mem_cons_of_mem x h)

theorem le_listMax (l : List ℚ) {x : ℚ} (hx : x ∈ l) : x ≤ listMax l := by
  cases l with
  | nil => exact absurd hx (List.not_mem_nil x)
  | cons y ys =>
    rcases List.mem_cons.mp hx with rfl | hx'
    · exact foldl_max_init_le ys x
    · exact foldl_max_mem_le ys y hx'

theorem listMax_mem (l : List ℚ) (h : l ≠ []) : listMax l ∈ l := by
  cases l with
  | nil => exact absurd rfl h
  | cons y ys =>
    rcases foldl_max_mem ys y with h' | h'
    · rw [listMax, h']; exact List.mem_cons_self y ys
    · exact List.mem_cons_of_mem y h'

theorem listMin_all_zero (l : List ℚ) (h : ∀ x ∈ l, x = 0) : listMin l = 0 := by
  cases hl : l with
  | nil => rfl
  | cons y ys => exact h _ (hl ▸ listMin_mem l (by rw [hl]; exact List.cons_ne_nil y ys))

theorem listMax_all_zero (l : List ℚ) (h : ∀ x ∈ l, x = 0) : listMax l = 0 := by
  cases hl : l with
  | nil => rfl
  | cons y ys => exact h _ (hl ▸ listMax_mem l (by rw [hl]; exact List.cons_ne_nil y ys))

/-! ### Helper lemmas: grouping -/

theorem groupInsert_keys (gs : List ClusterGroup) (r : VideoRecord) :
    (groupInsert gs r).map Prod.fst =
      if r.cluster ∈ gs.map Prod.fst then gs.map Prod.fst
      else gs.map Prod.fst ++ [r.cluster] := by
  induction gs with
  | nil => simp [groupInsert]
  | cons p rest ih =>
    obtain ⟨c, g⟩ := p
    by_cases h : c = r.cluster
    · subst h
      simp [groupInsert]
    · by_cases hm : r.cluster ∈ rest.map Prod.fst
      · simp [groupInsert, h, ih, hm]
      · simp [groupInsert, h, ih, hm, Ne.symm h]

theorem groupInsert_mem (gs : List ClusterGroup) (r : VideoRecord) (p : ClusterGroup)
    (hnd : (gs.map Prod.fst).Nodup) (hp : p ∈ groupInsert gs r) :
    (p ∈ gs ∧ p.1 ≠ r.cluster) ∨
    (p.1 = r.cluster ∧
      ((∃ g, (r.cluster, g) ∈ gs ∧ p.2 = g ++ [r]) ∨
       (r.cluster ∉ gs.map Prod.fst ∧ p.2 = [r]))) := by
  induction gs with
  | nil =>
    simp only [groupInsert, List.mem_singleton] at hp
    subst hp
    exact Or.inr ⟨rfl, Or.inr ⟨by simp, rfl⟩⟩
  | cons q rest ih =>
    obtain ⟨c, g⟩ := q
    rw [List.map_cons, List.nodup_cons] at hnd
    by_cases h : c = r.cluster
    · subst h
      rw [groupInsert, if_pos rfl] at hp
      rcases List.mem_cons.mp hp with rfl | hp'
      · exact Or.inr ⟨rfl, Or.inl ⟨g, List.mem_cons_self _ _, rfl⟩⟩
      · refine Or.inl ⟨List.mem_cons_of_mem _ hp', fun he => hnd.1 ?_⟩
        exact List.mem_map.mpr ⟨p, hp', he⟩
    · rw [groupInsert, if_neg h] at hp
      rcases List.mem_cons.mp hp with rfl | hp'
      · exact Or.inl ⟨List.mem_cons_self _ _, h⟩
      · rcases ih hnd.2 hp' with ⟨hin, hne⟩ | ⟨he, hrest⟩
        · exact Or.inl ⟨List.mem_cons_of_mem _ hin, hne⟩
        · refine Or.inr ⟨he, ?_⟩
          rcases hrest with ⟨g', hg', he'⟩ | ⟨hnm, he'⟩
          · exact Or.inl ⟨g', List.mem_cons_of_mem _ hg', he'⟩
          · refine Or.inr ⟨?_, he'⟩
            rw [List.map_cons, List.mem_cons]
            rintro (hc | hc)
            · exact h hc.symm
            · exact hnm hc

theorem groupInsert_ok (seen : List VideoRecord) (gs : List ClusterGroup) (r : VideoRecord)
    (h : GroupsOk seen gs) : GroupsOk (seen ++ [r]) (groupInsert gs r) := by
  obtain ⟨hnd, hkeys, hcontent, hne⟩ := h
  have hsubkeys : ∀ c : Int, c ∈ gs.map Prod.fst → c ∈ (groupInsert gs r).map Prod.fst := by
    intro c hc
    rw [groupInsert_keys]
    by_cases hm : r.cluster ∈ gs.map Prod.fst
    · rw [if_pos hm]; exact hc
    · rw [if_neg hm]; exact List.mem_append_left _ hc
  refine ⟨?_, ?_, ?_, ?_⟩
  · rw [groupInsert_keys]
    by_cases hm : r.cluster ∈ gs.map Prod.fst
    · rw [if_pos hm]; exact hnd
    · rw [if_neg hm]
      have hperm : List.Perm (r.cluster :: gs.map Prod.fst) (gs.map Prod.fst ++ [r.cluster]) :=
        (List.perm_append_singleton r.cluster (gs.map Prod.fst)).symm
      exact hperm.nodup_iff.mp (List.nodup_cons.mpr ⟨hm, hnd⟩)
  · intro r' hr'
    rcases List.mem_append.mp hr' with hr' | hr'
    · exact hsubkeys _ (hkeys r' hr')
    · rw [List.mem_singleton] at hr'
      rw [hr', groupInsert_keys]
      by_cases hm : r.cluster ∈ gs.map Prod.fst
      · rw [if_pos hm]; exact hm
      · rw [if_neg hm]; exact List.mem_append_right _ (List.mem_singleton.mpr rfl)
  · intro p hp
    rw [List.filter_append]
    rcases groupInsert_mem gs r p hnd hp with ⟨hin, hneq⟩ | ⟨he, hrest⟩
    · have hne' : ¬ (r.cluster = p.1) := fun h0 => hneq h0.symm
      have hsing : List.filter (fun r' => decide (r'.cluster = p.1)) [r] = [] := by
        simp [hne']
      rw [hsing, List.append_nil]
      exact hcontent p hin
    · have hsing : List.filter (fun r' => decide (r'.cluster = p.1)) [r] = [r] := by
        simp [he]
      rcases hrest with ⟨g', hg', he'⟩ | ⟨hnm, he'⟩
      · have hg'c := hcontent (r.cluster, g') hg'
        dsimp only at hg'c
        rw [hsing, he', hg'c, he]
      · have hfilter : List.filter (fun r' => decide (r'.cluster = p.1)) seen = [] := by
          rw [List.filter_eq_nil_iff]
          intro a ha
          simp only [decide_eq_true_eq]
          intro hac
          exact hnm (by rw [← he, ← hac]; exact hkeys a ha)
        rw [hsing, hfilter, he', List.nil_append]
  · intro p hp
    rcases groupInsert_mem gs r p hnd hp with ⟨hin, _⟩ | ⟨_, hrest⟩
    · exact hne p hin
    · rcases hrest with ⟨g', _, he'⟩ | ⟨_, he'⟩
      · rw [he']; simp
      · rw [he']; simp

theorem foldl_groupInsert_ok (data : List VideoRecord) :
    ∀ (seen : List VideoRecord) (gs : List ClusterGroup), GroupsOk seen gs →
      GroupsOk (seen ++ data) (data.foldl groupInsert gs) := by
  induction data with
  | nil => intro seen gs h; simpa using h
  | cons r rest ih =>
    intro seen gs h
    have := ih (seen ++ [r]) (groupInsert gs r) (groupInsert_ok seen gs r h)
    simpa using this

theorem groupRows_ok (data : List VideoRecord) : GroupsOk data (groupRows data) := by
  have h0 : GroupsOk [] [] := by
    refine ⟨List.nodup_nil, ?_, ?_, ?_⟩ <;> simp
  have := foldl_groupInsert_ok data [] [] h0
  simpa [groupRows] using this

/-! ### Helper lemmas: sorting -/

theorem insertSorted_perm (s : ClusterStats) (l : List ClusterStats) :
    List.Perm (insertSorted s l) (s :: l) := by
  induction l with
  | nil => exact List.Perm.refl _
  | cons t ts ih =>
    by_cases h : s.cluster ≤ t.cluster
    · rw [insertSorted, if_pos h]
    · rw [insertSorted, if_neg h]
      exact (ih.cons t).trans (List.Perm.swap s t ts)

theorem sortStats_perm (l : List ClusterStats) : List.Perm (sortStats l) l := by
  induction l with
  | nil => exact List.Perm.refl _
  | cons s rest ih =>
    rw [sortStats]
    exact (insertSorted_perm s (sortStats rest)).trans (ih.cons s)

theorem insertSorted_sorted (s : ClusterStats) (l : List ClusterStats)
    (h : l.Pairwise (fun a b => a.cluster ≤ b.cluster)) :
    (insertSorted s l).Pairwise (fun a b => a.cluster ≤ b.cluster) := by
  induction l with
  | nil => simp [insertSorted]
  | cons t ts ih =>
    obtain ⟨ht, hts⟩ := List.pairwise_cons.mp h
    by_cases hle : s.cluster ≤ t.cluster
    · rw [insertSorted, if_pos hle]
      refine List.pairwise_cons.mpr ⟨?_, h⟩
      intro b hb
      rcases List.mem_cons.mp hb with rfl | hb'
      · exact hle
      · exact le_trans hle (ht b hb')
    · rw [insertSorted, if_neg hle]
      refine List.pairwise_cons.mpr ⟨?_, ih hts⟩
      intro b hb
      have hb' : b = s ∨ b ∈ ts := by
        have := (insertSorted_perm s ts).mem_iff.mp hb
        simpa using this
      rcases hb' with rfl | hb'
      · exact le_of_not_le hle
      · exact ht b hb'

theorem sortStats_sorted (l : List ClusterStats) :
    (sortStats l).Pairwise (fun a b => a.cluster ≤ b.cluster) := by
  induction l with
  | nil => simp [sortStats]
  | cons s rest ih =>
    rw [sortStats]
    exact insertSorted_sorted s (sortStats rest) ih

theorem pairwise_lt_of_le_nodup (l : List ClusterStats)
    (hle : l.Pairwise (fun a b => a.cluster ≤ b.cluster))
    (hnd : (l.map (fun s => s.cluster)).Nodup) :
    l.Pairwise (fun a b => a.cluster < b.cluster) := by
  induction l with
  | nil => exact List.Pairwise.nil
  | cons s rest ih =>
    obtain ⟨hs, hrest⟩ := List.pairwise_cons.mp hle
    rw [List.map_cons, List.nodup_cons] at hnd
    refine List.pairwise_cons.mpr ⟨?_, ih hrest hnd.2⟩
    intro b hb
    rcases lt_or_eq_of_le (hs b hb) with h | h
    · exact h
    · exfalso
      apply hnd.1
      rw [h]
      exact List.mem_map_of_mem _ hb

theorem map_cluster_statsOfGroup (gs : List ClusterGroup) :
    (gs.map statsOfGroup).map (fun s => s.cluster) = gs.map Prod.fst := by
  induction gs with
  | nil => rfl
  | cons p rest ih => simp [statsOfGroup, ih]

theorem mem_calculateClusterStats (data : List VideoRecord) (s : ClusterStats)
    (hs : s ∈ calculateClusterStats data) :
    ∃ p ∈ groupRows data, s = statsOfGroup p := by
  have h1 : s ∈ (groupRows data).map statsOfGroup :=
    (sortStats_perm _).mem_iff.mp hs
  obtain ⟨p, hp, he⟩ := List.mem_map.mp h1
  exact ⟨p, hp, he.symm⟩

/-! ### Helper lemmas: trimming -/

theorem dropTrail_keeps_head (p : Char → Bool) (m : List Char)
    (hm : m.dropWhile p = m) : (dropTrail p m).dropWhile p = dropTrail p m := by
  cases m with
  | nil => rfl
  | cons x xs =>
    have hx : p x = false := by
      by_cases hpx : p x = true
      · exfalso
        rw [List.dropWhile_cons, if_pos hpx] at hm
        have hlen := congrArg List.length hm
        have hle : (List.dropWhile p xs).length ≤ xs.length :=
          List.Sublist.length_le (List.dropWhile_sublist _)
        simp only [List.length_cons] at hlen
        omega
      · exact eq_false_of_ne_true hpx
    have hsuf : (x :: xs).reverse.dropWhile p <:+ (x :: xs).reverse :=
      List.dropWhile_suffix p
    obtain ⟨t, ht⟩ := hsuf
    have hrev : ((x :: xs).reverse.dropWhile p).reverse ++ t.reverse = x :: xs := by
      have h1 := congrArg List.reverse ht
      rw [List.reverse_append, List.reverse_reverse] at h1
      exact h1
    rw [dropTrail]
    cases hd : ((x :: xs).reverse.dropWhile p).reverse with
    | nil => rfl
    | cons y ys =>
      rw [hd, List.cons_append] at hrev
      have hy : y = x := ((List.cons.injEq _ _ _ _).mp hrev).1
      rw [List.dropWhile_cons, hy, hx]
      simp

theorem dropTrail_idem (p : Char → Bool) (l : List Char) :
    dropTrail p (dropTrail p l) = dropTrail p l :=
  List.rdropWhile_idempotent p l

theorem trimChars_idem (l : List Char) : trimChars (trimChars l) = trimChars l := by
  have h1 : (l.dropWhile isJsWhitespace).dropWhile isJsWhitespace
      = l.dropWhile isJsWhitespace := List.dropWhile_idempotent _ _
  have h2 := dropTrail_keeps_head isJsWhitespace (l.dropWhile isJsWhitespace) h1
  unfold trimChars
  rw [h2, dropTrail_idem]

theorem jsTrim_idem (s : String) : jsTrim (jsTrim s) = jsTrim s := by
  unfold jsTrim
  exact congrArg String.mk (trimChars_idem s.data)

/-! ### Helper lemmas: association lists -/

theorem lookupA_setA {α : Type} (m : List (Int × α)) (k c : Int) (v : α) :
    lookupA (setA m k v) c = if k = c then some v else lookupA m c := by
  induction m with
  | nil =>
    by_cases hc : k = c <;> simp [setA, lookupA, hc]
  | cons p rest ih =>
    obtain ⟨k', v'⟩ := p
    by_cases h : k' = k
    · by_cases hc : k = c <;> simp [setA, lookupA, h, hc]
    · by_cases hc : k' = c
      · have hkc : ¬ (k = c) := fun he => h (hc.trans he.symm)
        have hck : ¬ (c = k) := fun he => hkc he.symm
        simp [setA, lookupA, h, hc, hkc, hck]
      · simp [setA, lookupA, h, hc, ih]

theorem setA_setA {α : Type} (m : List (Int × α)) (k : Int) (v : α) :
    setA (setA m k v) k v = setA m k v := by
  induction m with
  | nil => simp [setA]
  | cons p rest ih =>
    obtain ⟨k', v'⟩ := p
    by_cases h : k' = k
    · simp [setA, h]
    · simp [setA, h, ih]

/-! ### Helper lemmas: trend tokens -/

theorem tokenListOk_nil : TokenListOk [] := by
  refine ⟨by simp, List.nodup_nil, by simp⟩

theorem currentOk (m : List (Int × List String)) (c : Int) (h : TokensOk m) :
    TokenListOk ((lookupA m c).getD []) := by
  cases hlo : lookupA m c with
  | none => exact tokenListOk_nil
  | some l0 => exact h c l0 hlo

theorem filterIdxNe_sublist (l : List String) (i : Nat) : List.Sublist (filterIdxNe l i) l := by
  induction l generalizing i with
  | nil => simp [filterIdxNe]
  | cons x xs ih =>
    cases i with
    | zero => exact List.sublist_cons_self x xs
    | succ k => exact List.Sublist.cons₂ x (ih k)

theorem addTrendToken_ok (st : AppState) (c : Int) (tok : String)
    (h : TokensOk st.trendTokens) : TokensOk (addTrendToken st c tok).trendTokens := by
  simp only [addTrendToken]
  split_ifs with h1 h2 h3
  · exact h
  · exact h
  · exact h
  · intro c' l' hl'
    have hl2 : lookupA (setA st.trendTokens c
        ((lookupA st.trendTokens c).getD [] ++ [jsTrim tok])) c' = some l' := hl'
    rw [lookupA_setA] at hl2
    by_cases hc : c = c'
    · rw [if_pos hc] at hl2
      injection hl2 with hl''
      subst hl''
      have hcur := currentOk st.trendTokens c h
      refine ⟨?_, ?_, ?_⟩
      · rw [List.length_append, List.length_singleton]
        omega
      · rw [List.nodup_append]
        refine ⟨hcur.2.1, List.nodup_singleton _, ?_⟩
        intro a ha hb
        rw [List.mem_singleton] at hb
        subst hb
        exact h3 ha
      · intro t ht
        rcases List.mem_append.mp ht with h' | h'
        · exact hcur.2.2 t h'
        · rw [List.mem_singleton] at h'
          subst h'
          exact jsTrim_idem tok
    · rw [if_neg hc] at hl2
      exact h c' l' hl2

theorem removeTrendToken_ok (st : AppState) (c : Int) (i : Nat)
    (h : TokensOk st.trendTokens) : TokensOk (removeTrendToken st c i).trendTokens := by
  intro c' l' hl'
  have hl2 : lookupA (setA st.trendTokens c
      (filterIdxNe ((lookupA st.trendTokens c).getD []) i)) c' = some l' := hl'
  rw [lookupA_setA] at hl2
  by_cases hc : c = c'
  · rw [if_pos hc] at hl2
    injection hl2 with hl''
    subst hl''
    have hcur := currentOk st.trendTokens c h
    have hsub := filterIdxNe_sublist ((lookupA st.trendTokens c).getD []) i
    exact ⟨le_trans (List.Sublist.length_le hsub) hcur.1,
      List.Nodup.sublist hsub hcur.2.1,
      fun t ht => hcur.2.2 t (List.Sublist.subset hsub ht)⟩
  · rw [if_neg hc] at hl2
    exact h c' l' hl2

theorem applyTokenOps_ok (ops : List TokenOp) :
    ∀ st : AppState, TokensOk st.trendTokens →
      TokensOk (applyTokenOps st ops).trendTokens := by
  induction ops with
  | nil => intro st h; exact h
  | cons op rest ih =>
    intro st h
    have hstep : TokensOk (applyTokenOp st op).trendTokens := by
      cases op with
      | add c tok => exact addTrendToken_ok st c tok h
      | remove c i => exact removeTrendToken_ok st c i h
    exact ih (applyTokenOp st op) hstep

theorem tokensOk_initial : TokensOk initialState.trendTokens := by
  intro c l hl
  simp [initialState, lookupA] at hl

/-! ### The claims -/

/-- C1 (counterexample): for the cluster with motion values
`[0.1, 0.3, 0.5]` and cut-rate values `[20, 40, 60]` the aggregator does
yield `avg_motion = 0.3`, `min = 0.1`, `max = 0.5`, `avg_cut_rate = 40`,
but the built spec has `camera_movement = "static"` (the source condition
is the strict `avg_motion > 0.3`) and `pacing = "slow"` (the source
condition is the strict `avg_cut_rate > 60`), contradicting the claimed
`"moderate"` and `"medium"`. -/
theorem claim_C1_counterexample :
    calculateClusterStats c1Data = [c1Stats] ∧
    c1Stats.avg_motion = 3/10 ∧ c1Stats.min_motion = 1/10 ∧ c1Stats.max_motion = 1/2 ∧
    c1Stats.avg_cut_rate = 40 ∧
    c1Spec.base_prompt_components.motion_profile.camera_movement = "static" ∧
    c1Spec.base_prompt_components.motion_profile.pacing = "slow" ∧
    c1Spec.base_prompt_components.motion_profile.camera_movement ≠ "moderate" ∧
    c1Spec.base_prompt_components.motion_profile.pacing ≠ "medium" := by
  refine ⟨rfl, ?_, ?_, ?_, ?_, ?_, ?_, ?_, ?_⟩
  all_goals norm_num [c1Spec, c1Stats, c1Data, c1Row, buildSpec, statsOfGroup, avgL, listMin,
    listMax, List.foldl]
  all_goals decide

/-- C1 (amended): for the cluster with motion values `[0.1, 0.3, 0.5]` and
cut-rate values `[20, 40, 60]`, the aggregator yields `avg_motion = 0.3`,
`min_motion = 0.1`, `max_motion = 0.5`, `avg_cut_rate = 40`, and the
generation spec built from those statistics has
`motion_profile.camera_movement = "static"` and
`motion_profile.pacing = "slow"`. -/
theorem claim_C1 :
    calculateClusterStats c1Data = [c1Stats] ∧
    c1Stats.avg_motion = 3/10 ∧ c1Stats.min_motion = 1/10 ∧ c1Stats.max_motion = 1/2 ∧
    c1Stats.avg_cut_rate = 40 ∧
    c1Spec.base_prompt_components.motion_profile.camera_movement = "static" ∧
    c1Spec.base_prompt_components.motion_profile.pacing = "slow" := by
  refine ⟨rfl, ?_, ?_, ?_, ?_, ?_, ?_⟩ <;>
    norm_num [c1Spec, c1Stats, c1Data, c1Row, buildSpec, statsOfGroup, avgL, listMin, listMax,
      List.foldl]

/-- C2: the rule cascade is a total function of the five normalized values;
whenever `motion > 60` and `cutRate > 60` both hold it returns the
motion-focused / high suggestion regardless of the other three values, and
every result is one of the six suggestions of the listed rules. -/
theorem claim_C2 :
    (∀ motion cutRate visualDensity audioVolume audioVariance : ℚ,
        motion > 60 → cutRate > 60 →
        suggestFromMetrics motion cutRate visualDensity audioVolume audioVariance =
          ⟨"motion-focused", "high", "High motion + fast cuts = movement-driven content"⟩) ∧
    (∀ motion cutRate visualDensity audioVolume audioVariance : ℚ,
        suggestFromMetrics motion cutRate visualDensity audioVolume audioVariance ∈
          ([⟨"motion-focused", "high", "High motion + fast cuts = movement-driven content"⟩,
            ⟨"image-conditioned", "high", "Strong visual composition and density"⟩,
            ⟨"image-conditioned", "medium", "Visual-focused with minimal movement"⟩,
            ⟨"motion-focused", "medium", "Significant camera/subject movement"⟩,
            ⟨"text-driven", "medium",
              "Distinctive audio characteristics suggest narrative/thematic content"⟩,
            ⟨"text-driven", "low",
              "Balanced metrics - best suited for conceptual/thematic generation"⟩] :
            List ApproachSuggestion)) := by
  constructor
  · intro m c v av ar hm hc
    rw [suggestFromMetrics, if_pos (⟨hm, hc⟩ : m > 60 ∧ c > 60)]
  · intro m c v av ar
    rw [suggestFromMetrics]
    split_ifs <;> simp

/-- C2 witness: at `motion = 65`, `cutRate = 65`, `visualDensity = 80` the
cascade still returns the motion-focused / high suggestion. -/
theorem claim_C2_witness :
    suggestFromMetrics 65 65 80 0 0 =
      ⟨"motion-focused", "high", "High motion + fast cuts = movement-driven content"⟩ :=
  claim_C2.1 65 65 80 0 0 (by norm_num) (by norm_num)

/-- C3: for every nonempty cluster list and every metric projection, the
normalized radar value of a member cluster lies in `[0, 100]`; when the
values are not all equal, a cluster attaining the minimum maps to `0` and a
cluster attaining the maximum maps to `100`; when the values are all equal
(in particular for a single cluster), every cluster maps to `50`. -/
theorem claim_C3 (cs : List ClusterStats) (f : ClusterStats → ℚ) (s : ClusterStats)
    (hs : s ∈ cs) :
    (0 ≤ radarValue cs f s ∧ radarValue cs f s ≤ 100) ∧
    (¬ (∀ t ∈ cs, ∀ u ∈ cs, f t = f u) →
      ((∀ t ∈ cs, f s ≤ f t) → radarValue cs f s = 0) ∧
      ((∀ t ∈ cs, f t ≤ f s) → radarValue cs f s = 100)) ∧
    ((∀ t ∈ cs, ∀ u ∈ cs, f t = f u) → radarValue cs f s = 50) := by
  have hfs : f s ∈ cs.map f := List.mem_map_of_mem f hs
  have hne : cs.map f ≠ [] := List.ne_nil_of_mem hfs
  have hmn_le : listMin (cs.map f) ≤ f s := listMin_le _ hfs
  have hle_mx : f s ≤ listMax (cs.map f) := le_listMax _ hfs
  obtain ⟨t0, ht0, ht0e⟩ := List.mem_map.mp (listMin_mem _ hne)
  obtain ⟨u0, hu0, hu0e⟩ := List.mem_map.mp (listMax_mem _ hne)
  have hconst_eq : (∀ t ∈ cs, ∀ u ∈ cs, f t = f u) →
      listMax (cs.map f) = listMin (cs.map f) := by
    intro hall
    rw [← ht0e, ← hu0e]
    exact hall u0 hu0 t0 ht0
  have heq_all : listMax (cs.map f) = listMin (cs.map f) →
      ∀ t ∈ cs, ∀ u ∈ cs, f t = f u := by
    intro heq t ht u hu
    have h1 : f t ≤ listMax (cs.map f) := le_listMax _ (List.mem_map_of_mem f ht)
    have h2 : listMin (cs.map f) ≤ f t := listMin_le _ (List.mem_map_of_mem f ht)
    have h3 : f u ≤ listMax (cs.map f) := le_listMax _ (List.mem_map_of_mem f hu)
    have h4 : listMin (cs.map f) ≤ f u := listMin_le _ (List.mem_map_of_mem f hu)
    have hte : f t = listMin (cs.map f) := le_antisymm (heq ▸ h1) h2
    have hue : f u = listMin (cs.map f) := le_antisymm (heq ▸ h3) h4
    rw [hte, hue]
  refine ⟨?_, ?_, ?_⟩
  · simp only [radarValue, normalizeValue]
    by_cases hcase : listMax (cs.map f) = listMin (cs.map f)
    · rw [if_pos hcase]
      norm_num
    · rw [if_neg hcase]
      have hlt : listMin (cs.map f) < listMax (cs.map f) :=
        lt_of_le_of_ne (le_trans hmn_le hle_mx) (fun h => hcase h.symm)
      have hpos : (0 : ℚ) < listMax (cs.map f) - listMin (cs.map f) := sub_pos.mpr hlt
      constructor
      · apply mul_nonneg
        · exact div_nonneg (sub_nonneg.mpr hmn_le) (le_of_lt hpos)
        · norm_num
      · have hdiv : (f s - listMin (cs.map f)) / (listMax (cs.map f) - listMin (cs.map f)) ≤ 1 := by
          rw [div_le_one hpos]
          exact sub_le_sub_right hle_mx _
        calc (f s - listMin (cs.map f)) / (listMax (cs.map f) - listMin (cs.map f)) * 100
            ≤ 1 * 100 := by
              apply mul_le_mul_of_nonneg_right hdiv
              norm_num
          _ = 100 := one_mul 100
  · intro hnc
    have hcase : ¬ (listMax (cs.map f) = listMin (cs.map f)) := fun h => hnc (heq_all h)
    constructor
    · intro hsmin
      have hfse : f s = listMin (cs.map f) := by
        refine le_antisymm ?_ hmn_le
        rw [← ht0e]
        exact hsmin t0 ht0
      simp only [radarValue, normalizeValue]
      rw [if_neg hcase, hfse, sub_self, zero_div, zero_mul]
    · intro hsmax
      have hfse : f s = listMax (cs.map f) := by
        refine le_antisymm hle_mx ?_
        rw [← hu0e]
        exact hsmax u0 hu0
      simp only [radarValue, normalizeValue]
      rw [if_neg hcase, hfse, div_self (sub_ne_zero.mpr hcase), one_mul]
  · intro hall
    simp only [radarValue, normalizeValue]
    rw [if_pos (hconst_eq hall)]

/-- C3 witness: in the two-cluster example list the first cluster is a
member and its motion radar value lies in `[0, 100]`. -/
theorem claim_C3_witness :
    0 ≤ radarValue c3Cs (fun s => s.avg_motion) (mkStats 1 0) ∧
    radarValue c3Cs (fun s => s.avg_motion) (mkStats 1 0) ≤ 100 :=
  (claim_C3 c3Cs (fun s => s.avg_motion) (mkStats 1 0) (List.mem_cons_self _ _)).1

/-- C4: the aggregator output is sorted strictly ascending by numeric
cluster id (hence no two entries share a cluster id), the empty table yields
the empty output, and every entry counts exactly the input rows of its
cluster, at least one. -/
theorem claim_C4 (data : List VideoRecord) :
    (calculateClusterStats data).Pairwise (fun a b => a.cluster < b.cluster) ∧
    calculateClusterStats [] = [] ∧
    ∀ s ∈ calculateClusterStats data,
      s.count = (data.filter (fun r => r.cluster = s.cluster)).length ∧ 1 ≤ s.count := by
  obtain ⟨hnd, hkeys, hcontent, hnon⟩ := groupRows_ok data
  refine ⟨?_, rfl, ?_⟩
  · have hle := sortStats_sorted ((groupRows data).map statsOfGroup)
    have hnd2 : (((groupRows data).map statsOfGroup).map (fun s => s.cluster)).Nodup := by
      rw [map_cluster_statsOfGroup]
      exact hnd
    have hperm := (sortStats_perm ((groupRows data).map statsOfGroup)).map
      (fun s : ClusterStats => s.cluster)
    have hnd3 : ((sortStats ((groupRows data).map statsOfGroup)).map
        (fun s => s.cluster)).Nodup := hperm.nodup_iff.mpr hnd2
    exact pairwise_lt_of_le_nodup _ hle hnd3
  · intro s hs
    obtain ⟨p, hp, he⟩ := mem_calculateClusterStats data s hs
    have hfil := hcontent p hp
    have h1 : (statsOfGroup p).count = p.2.length := rfl
    have h2 : (statsOfGroup p).cluster = p.1 := rfl
    constructor
    · rw [he, h1, h2, hfil]
    · rw [he, h1]
      exact List.length_pos.mpr (hnon p hp)

/-- C4 witness: in the two-cluster example table, cluster `1` has count `2`,
the number of its rows. -/
theorem claim_C4_witness :
    wS1.count = (wData.filter (fun r => r.cluster = wS1.cluster)).length ∧ 1 ≤ wS1.count := by
  have hmem : wS1 ∈ calculateClusterStats wData := by
    rw [show calculateClusterStats wData = [wS1, wS2] from rfl]
    exact List.mem_cons_self _ _
  exact (claim_C4 wData).2.2 wS1 hmem

/-- C5: a missing metric field never drops a row — the count of a cluster is
the full number of its rows — and a cluster all of whose rows lack a given
metric field has average, minimum and maximum `0` for that metric (averages
only for the two audio metrics, whose minima and maxima are not kept). -/
theorem claim_C5 (data : List VideoRecord) (s : ClusterStats)
    (hs : s ∈ calculateClusterStats data) :
    s.count = (data.filter (fun r => r.cluster = s.cluster)).length ∧
    ((∀ r ∈ data, r.cluster = s.cluster → r.motion_mean = none) →
      s.avg_motion = 0 ∧ s.min_motion = 0 ∧ s.max_motion = 0) ∧
    ((∀ r ∈ data, r.cluster = s.cluster → r.cut_rate_per_min = none) →
      s.avg_cut_rate = 0 ∧ s.min_cut_rate = 0 ∧ s.max_cut_rate = 0) ∧
    ((∀ r ∈ data, r.cluster = s.cluster → r.visual_density = none) →
      s.avg_visual_density = 0 ∧ s.min_visual_density = 0 ∧ s.max_visual_density = 0) ∧
    ((∀ r ∈ data, r.cluster = s.cluster → r.audio_rms_mean = none) →
      s.avg_audio_rms_mean = 0) ∧
    ((∀ r ∈ data, r.cluster = s.cluster → r.audio_rms_std = none) →
      s.avg_audio_rms_std = 0) := by
  obtain ⟨hnd, hkeys, hcontent, hnon⟩ := groupRows_ok data
  obtain ⟨p, hp, he⟩ := mem_calculateClusterStats data s hs
  have hfil := hcontent p hp
  have h1 : (statsOfGroup p).count = p.2.length := rfl
  have h2 : (statsOfGroup p).cluster = p.1 := rfl
  have hclus : s.cluster = p.1 := by rw [he, h2]
  have hgmem : ∀ r ∈ p.2, r ∈ data ∧ r.cluster = p.1 := by
    intro r hr
    rw [hfil] at hr
    have hm := List.mem_filter.mp hr
    exact ⟨hm.1, by simpa using hm.2⟩
  have hzero : ∀ f : VideoRecord → Option ℚ,
      (∀ r ∈ data, r.cluster = s.cluster → f r = none) →
      ∀ x ∈ p.2.map (fun r => (f r).getD 0), x = 0 := by
    intro f hmiss x hx
    obtain ⟨r, hr, hxe⟩ := List.mem_map.mp hx
    obtain ⟨hrd, hrc⟩ := hgmem r hr
    have hnone : f r = none := hmiss r hrd (by rw [hrc, hclus])
    rw [hnone] at hxe
    exact hxe.symm
  refine ⟨?_, ?_, ?_, ?_, ?_, ?_⟩
  · rw [he, h1, h2, hfil]
  · intro hm
    exact ⟨by rw [he]; exact avgL_all_zero _ (hzero _ hm),
      by rw [he]; exact listMin_all_zero _ (hzero _ hm),
      by rw [he]; exact listMax_all_zero _ (hzero _ hm)⟩
  · intro hm
    exact ⟨by rw [he]; exact avgL_all_zero _ (hzero _ hm),
      by rw [he]; exact listMin_all_zero _ (hzero _ hm),
      by rw [he]; exact listMax_all_zero _ (hzero _ hm)⟩
  · intro hm
    exact ⟨by rw [he]; exact avgL_all_zero _ (hzero _ hm),
      by rw [he]; exact listMin_all_zero _ (hzero _ hm),
      by rw [he]; exact listMax_all_zero _ (hzero _ hm)⟩
  · intro hm
    rw [he]
    exact avgL_all_zero _ (hzero _ hm)
  · intro hm
    rw [he]
    exact avgL_all_zero _ (hzero _ hm)

/-- C5 witness: in the two-cluster example table every row of cluster `1`
lacks the cut-rate field, so its cut-rate average, minimum and maximum are
all `0`, while its count is still `2`. -/
theorem claim_C5_witness :
    wS1.count = (wData.filter (fun r => r.cluster = wS1.cluster)).length ∧
    (wS1.avg_cut_rate = 0 ∧ wS1.min_cut_rate = 0 ∧ wS1.max_cut_rate = 0) := by
  have hmem : wS1 ∈ calculateClusterStats wData := by
    rw [show calculateClusterStats wData = [wS1, wS2] from rfl]
    exact List.mem_cons_self _ _
  have h := claim_C5 wData wS1 hmem
  exact ⟨h.1, h.2.2.1 (by decide)⟩

/-- C6: when no approach has been chosen for a cluster, the user-facing
build action is inert — the button is disabled, clicking changes nothing,
no spec is produced or stored and no fault is raised. -/
theorem claim_C6 (st : AppState) (c : Int)
    (h : lookupA st.selectedApproaches c = none) : clickGenerateSpec st c = st := by
  simp [clickGenerateSpec, h]

/-- C6 witness: in the start state no approach is chosen for cluster `0`
and the build action leaves the state unchanged. -/
theorem claim_C6_witness : clickGenerateSpec initialState 0 = initialState :=
  claim_C6 initialState 0 rfl

/-- C7: starting from the empty map, any sequence of add and remove
operations keeps every stored trend-token list at length at most `3` with
no two entries equal after trimming; adding a token to a full list, adding
a duplicate, and adding a token that trims to empty each leave the state
unchanged. -/
theorem claim_C7 :
    (∀ (ops : List TokenOp) (c : Int) (l : List String),
        lookupA (applyTokenOps initialState ops).trendTokens c = some l →
        l.length ≤ 3 ∧ (l.map jsTrim).Nodup) ∧
    (∀ (st : AppState) (c : Int) (tok : String),
        3 ≤ ((lookupA st.trendTokens c).getD []).length → addTrendToken st c tok = st) ∧
    (∀ (st : AppState) (c : Int) (tok : String),
        jsTrim tok ∈ (lookupA st.trendTokens c).getD [] → addTrendToken st c tok = st) ∧
    (∀ (st : AppState) (c : Int) (tok : String),
        jsTrim tok = "" → addTrendToken st c tok = st) := by
  refine ⟨?_, ?_, ?_, ?_⟩
  · intro ops c l hl
    have hok := applyTokenOps_ok ops initialState tokensOk_initial c l hl
    refine ⟨hok.1, ?_⟩
    have hmap : l.map jsTrim = l := by
      rw [List.map_congr_left fun t ht => hok.2.2 t ht]
      simp
    rw [hmap]
    exact hok.2.1
  · intro st c tok h3
    by_cases h1 : jsTrim tok = ""
    · simp [addTrendToken, h1]
    · simp [addTrendToken, h1, h3]
  · intro st c tok hmem
    by_cases h1 : jsTrim tok = ""
    · simp [addTrendToken, h1]
    · by_cases h2 : ((lookupA st.trendTokens c).getD []).length ≥ 3
      · simp [addTrendToken, h1, h2]
      · simp [addTrendToken, h1, h2, hmem]
  · intro st c tok h1
    simp [addTrendToken, h1]

/-- C7 witness: the operation list that adds `" a "`, the duplicate `"a"`
and `"b"` to cluster `0` stores exactly `["a", "b"]`, which satisfies the
invariant; adding to a full list, adding a duplicate, and adding blank both
leave the concrete states unchanged. -/
theorem claim_C7_witness :
    ((["a", "b"] : List String).length ≤ 3 ∧
      ((["a", "b"] : List String).map jsTrim).Nodup) ∧
    addTrendToken c7St3 0 "x" = c7St3 ∧
    addTrendToken c7St 0 "a" = c7St ∧
    addTrendToken c7St 0 " " = c7St :=
  ⟨claim_C7.1 c7Ops 0 ["a", "b"] (by decide),
   claim_C7.2.1 c7St3 0 "x" (by decide),
   claim_C7.2.2.1 c7St 0 "a" (by decide),
   claim_C7.2.2.2 c7St 0 " " (by decide)⟩

/-- C8: the spec builder is deterministic and idempotent — building again
for the same cluster in the state the first build produced, with the same
statistics, approach and tokens, yields exactly the same state and hence an
identical stored spec document. -/
theorem claim_C8 (st : AppState) (c : Int) :
    generateSpec (generateSpec st c) c = generateSpec st c := by
  cases hf : st.clusterStats.find? (fun s => s.cluster = c) with
  | none => simp [generateSpec, hf]
  | some stats => simp [generateSpec, hf, setA_setA]

/-- C9: building a spec for cluster `c` leaves the stored spec of every
other cluster id unchanged, and deletes no stored entry. -/
theorem claim_C9 (st : AppState) (c d : Int) :
    (d ≠ c → lookupA (generateSpec st c).generationSpecs d = lookupA st.generationSpecs d) ∧
    ((lookupA st.generationSpecs d).isSome →
      (lookupA (generateSpec st c).generationSpecs d).isSome) := by
  cases hf : st.clusterStats.find? (fun s => s.cluster = c) with
  | none => simp [generateSpec, hf]
  | some stats =>
    constructor
    · intro hne
      simp only [generateSpec, hf]
      rw [lookupA_setA, if_neg fun h => hne h.symm]
    · intro hsome
      simp only [generateSpec, hf]
      rw [lookupA_setA]
      by_cases hdc : c = d
      · rw [if_pos hdc]
        rfl
      · rw [if_neg hdc]
        exact hsome

/-- C9 witness: building the spec of cluster `1` in the example state leaves
the stored spec of cluster `5` unchanged and present. -/
theorem claim_C9_witness :
    lookupA (generateSpec c9St 1).generationSpecs 5 = lookupA c9St.generationSpecs 5 ∧
    (lookupA (generateSpec c9St 1).generationSpecs 5).isSome :=
  ⟨(claim_C9 c9St 1 5).1 (by decide),
   (claim_C9 c9St 1 5).2 (by rfl)⟩

/-- C10: invoking the spec build with a cluster id absent from the current
statistics is a no-op: the state — in particular the spec store and the
selected-cluster marker — is unchanged. -/
theorem claim_C10 (st : AppState) (c : Int)
    (h : ∀ s ∈ st.clusterStats, s.cluster ≠ c) : generateSpec st c = st := by
  have hf : st.clusterStats.find? (fun s => s.cluster = c) = none := by
    rw [List.find?_eq_none]
    intro s hs
    simpa using h s hs
  simp [generateSpec, hf]

/-- C10 witness: the example state holds clusters `1` and `2` only, so
building for cluster `99` changes nothing. -/
theorem claim_C10_witness : generateSpec c9St 99 = c9St :=
  claim_C10 c9St 99 (by decide)
